import Mathlib

/-!
Verification of the solar-system simulator (planet kinematics, camera rig,
renderer texture table, scene coordinator) against its specification.

The Python source is shallowly embedded: float arithmetic becomes exact
arithmetic over `ℚ` (kinematic state) or `ℝ` (trigonometric geometry);
the exception channel of fallible operations becomes `Option`; external
effects (file reads, the random generator) become explicit parameters.
-/

open Real

/-! ## Orbiting bodies (src/planet.py) -/

/-- State of one celestial body, mirroring the fields set in
`Planet.__init__`.  The two angle fields are the mutable kinematic state;
the rest are static parameters.  `color` is the flat fallback RGB. -/
structure Planet where
  name : String
  radius : ℚ
  distance : ℚ
  orbit_speed : ℚ
  rotation_speed : ℚ
  texture_id : Int
  color : ℚ × ℚ × ℚ
  orbit_angle : ℚ
  rotation_angle : ℚ
  deriving DecidableEq, Repr

/-- `Planet.update`: each angle is advanced by `speed * delta_time`, and
360 is subtracted once when the result reached 360 (no handling of
negative values, exactly as in the source). -/
def Planet.update (p : Planet) (delta_time : ℚ) : Planet :=
  let oa0 := p.orbit_angle + p.orbit_speed * delta_time
  let oa := if oa0 ≥ 360 then oa0 - 360 else oa0
  let ra0 := p.rotation_angle + p.rotation_speed * delta_time
  let ra := if ra0 ≥ 360 then ra0 - 360 else ra0
  { p with orbit_angle := oa, rotation_angle := ra }

/-- `Planet.__init__` with the exception channel made explicit as `Option`
(`none` would be a raised construction error) and the two draws of
`np.random.uniform(0, 360)` passed in as `randOrbit`/`randRot`.  The
source performs no parameter validation, so every call returns `some`. -/
def Planet.init (name : String) (radius distance orbit_speed rotation_speed : ℚ)
    (texture_id : Int) (color : ℚ × ℚ × ℚ) (randOrbit randRot : ℚ) : Option Planet :=
  some { name := name, radius := radius, distance := distance,
         orbit_speed := orbit_speed, rotation_speed := rotation_speed,
         texture_id := texture_id, color := color,
         orbit_angle := randOrbit, rotation_angle := randRot }

/-- `PLANETS_DATA` from src/main.py: (name, radius, distance, orbit_speed,
rotation_speed).  Note the negative rotation speed of Venus. -/
def PLANETS_DATA : List (String × ℚ × ℚ × ℚ × ℚ) :=
  [("Mercury", 0.38, 8.0, 4.0, 3.0),
   ("Venus", 0.95, 12.0, 1.5, -1.0),
   ("Earth", 1.0, 16.0, 1.0, 2.0),
   ("Mars", 0.53, 21.0, 0.8, 1.9),
   ("Jupiter", 2.5, 30.0, 0.3, 2.4),
   ("Saturn", 2.0, 40.0, 0.15, 2.3)]

/-- A Venus-parameterised body (second entry of `PLANETS_DATA`) whose two
random initial angles happen to be drawn as 0 — a legal start state. -/
def venusAtZero : Planet :=
  { name := "Venus", radius := 0.95, distance := 12, orbit_speed := 1.5,
    rotation_speed := -1, texture_id := 1, color := (0.8, 0.8, 0.8),
    orbit_angle := 0, rotation_angle := 0 }

/-- A Mercury-parameterised body with both angles drawn as 0. -/
def mercuryAtZero : Planet :=
  { name := "Mercury", radius := 0.38, distance := 8, orbit_speed := 4,
    rotation_speed := 3, texture_id := 0, color := (0.8, 0.8, 0.8),
    orbit_angle := 0, rotation_angle := 0 }

/-- One invocation of the update step preserves `[0,360)` for both angles
as long as both per-tick increments `speed * dt` lie in `[0, 360]`. -/
theorem Planet.update_mem_Ico (p : Planet) (dt : ℚ)
    (ho₁ : 0 ≤ p.orbit_angle) (ho₂ : p.orbit_angle < 360)
    (hr₁ : 0 ≤ p.rotation_angle) (hr₂ : p.rotation_angle < 360)
    (hso₁ : 0 ≤ p.orbit_speed * dt) (hso₂ : p.orbit_speed * dt ≤ 360)
    (hsr₁ : 0 ≤ p.rotation_speed * dt) (hsr₂ : p.rotation_speed * dt ≤ 360) :
    (0 ≤ (p.update dt).orbit_angle ∧ (p.update dt).orbit_angle < 360) ∧
      (0 ≤ (p.update dt).rotation_angle ∧ (p.update dt).rotation_angle < 360) := by
  simp only [Planet.update]
  constructor
  · by_cases h : p.orbit_angle + p.orbit_speed * dt ≥ 360 <;>
      simp [h] <;> first
      | (constructor <;> linarith)
      | linarith
  · by_cases h : p.rotation_angle + p.rotation_speed * dt ≥ 360 <;>
      simp [h] <;> first
      | (constructor <;> linarith)
      | linarith

/-- The update step does not change the static speed parameters. -/
theorem Planet.update_speeds (p : Planet) (dt : ℚ) :
    (p.update dt).orbit_speed = p.orbit_speed ∧
      (p.update dt).rotation_speed = p.rotation_speed := by
  constructor <;> rfl

/-- C1 — COUNTEREXAMPLE.  The claim as stated is false: a body built from
the Venus row of `PLANETS_DATA` (spin speed −1.0) with initial angles 0
leaves `[0,360)` after a single `update` with dt = 1.0: its rotation
angle becomes −1, since the source only wraps values that reach 360 and
never corrects negative ones. -/
theorem c1_counterexample :
    (venusAtZero.update 1).rotation_angle = -1 ∧
      ¬ (0 ≤ (venusAtZero.update 1).rotation_angle ∧
          (venusAtZero.update 1).rotation_angle < 360) := by
  constructor
  · norm_num [Planet.update, venusAtZero]
  · norm_num [Planet.update, venusAtZero]

/-- C1 (amended) — for every body whose per-tick angle increments
`speed * 1.0` are nonnegative and at most 360 (in particular every body
with speeds in `[0, 360]`), starting from angles in `[0,360)`, after any
finite number of `update` calls with dt = 1.0 both `orbit_angle` and
`rotation_angle` remain in `[0,360)`. -/
theorem c1_angles_remain_in_Ico (p : Planet)
    (ho₁ : 0 ≤ p.orbit_angle) (ho₂ : p.orbit_angle < 360)
    (hr₁ : 0 ≤ p.rotation_angle) (hr₂ : p.rotation_angle < 360)
    (hso₁ : 0 ≤ p.orbit_speed) (hso₂ : p.orbit_speed ≤ 360)
    (hsr₁ : 0 ≤ p.rotation_speed) (hsr₂ : p.rotation_speed ≤ 360) (n : ℕ) :
    (0 ≤ ((fun q => Planet.update q 1)^[n] p).orbit_angle ∧
        ((fun q => Planet.update q 1)^[n] p).orbit_angle < 360) ∧
      (0 ≤ ((fun q => Planet.update q 1)^[n] p).rotation_angle ∧
        ((fun q => Planet.update q 1)^[n] p).rotation_angle < 360) := by
  induction n generalizing p with
  | zero => exact ⟨⟨ho₁, ho₂⟩, ⟨hr₁, hr₂⟩⟩
  | succ n ih =>
    rw [Function.iterate_succ_apply]
    have hstep := Planet.update_mem_Ico p 1 ho₁ ho₂ hr₁ hr₂
      (by linarith) (by linarith) (by linarith) (by linarith)
    have hsp := Planet.update_speeds p 1
    exact ih (p.update 1) hstep.1.1 hstep.1.2 hstep.2.1 hstep.2.2
      (hsp.1 ▸ hso₁) (hsp.1 ▸ hso₂) (hsp.2 ▸ hsr₁) (hsp.2 ▸ hsr₂)

/-- C1 witness: the amended statement instantiated at the Mercury body
and 90 ticks. -/
theorem c1_witness :
    (0 ≤ ((fun q => Planet.update q 1)^[90] mercuryAtZero).orbit_angle ∧
        ((fun q => Planet.update q 1)^[90] mercuryAtZero).orbit_angle < 360) ∧
      (0 ≤ ((fun q => Planet.update q 1)^[90] mercuryAtZero).rotation_angle ∧
        ((fun q => Planet.update q 1)^[90] mercuryAtZero).rotation_angle < 360) :=
  c1_angles_remain_in_Ico mercuryAtZero
    (by norm_num [mercuryAtZero]) (by norm_num [mercuryAtZero])
    (by norm_num [mercuryAtZero]) (by norm_num [mercuryAtZero])
    (by norm_num [mercuryAtZero]) (by norm_num [mercuryAtZero])
    (by norm_num [mercuryAtZero]) (by norm_num [mercuryAtZero]) 90

/-- C2 — COUNTEREXAMPLE.  Construction with `bodyRadius = -1 ≤ 0` (and a
positive orbit radius) is not rejected: `Planet.init` returns a usable
body, because `Planet.__init__` contains no validation of its radii. -/
theorem c2_counterexample :
    Planet.init "X" (-1) 5 0 0 0 (0.8, 0.8, 0.8) 10 20 ≠ none := by
  simp [Planet.init]

/-- C2 (amended) — construction performs no validation at all: every
constructor call succeeds (no exception is raised for any radii, positive
or not) and yields the body whose `orbit_angle` and `rotation_angle` are
exactly the two independent uniform draws, which `np.random.uniform(0,360)`
supplies in `[0,360)`. -/
theorem c2_init_never_rejects (name : String)
    (radius distance orbit_speed rotation_speed : ℚ) (texture_id : Int)
    (color : ℚ × ℚ × ℚ) (randOrbit randRot : ℚ) :
    Planet.init name radius distance orbit_speed rotation_speed texture_id
        color randOrbit randRot =
      some { name := name, radius := radius, distance := distance,
             orbit_speed := orbit_speed, rotation_speed := rotation_speed,
             texture_id := texture_id, color := color,
             orbit_angle := randOrbit, rotation_angle := randRot } := rfl

/-! ## Renderer texture table (src/renderer.py) -/

/-- The renderer state relevant to texture management: the `textures`
dict of `OpenGLRenderer`, embedded as an association list from texture
name to OpenGL texture id. -/
structure OpenGLRenderer where
  width : ℕ
  height : ℕ
  textures : List (String × Int)
  deriving DecidableEq, Repr

/-- `OpenGLRenderer.load_texture`.  The file read plus GL texture-object
creation (`Image.open` … `glGenTextures` … `glTexImage2D`) is the external
effect, embedded as `fs : String → Option Int`: `fs path` is the id of
the texture object created from `path`, or `none` when the `try` block
raises.  An already-stored name returns its stored id immediately, without
consulting `fs`; a successful load stores the new id; a failed load is
caught and reported as the sentinel `-1`, storing nothing. -/
def OpenGLRenderer.load_texture (r : OpenGLRenderer) (texture_name : String)
    (image_path : String) (fs : String → Option Int) : OpenGLRenderer × Int :=
  match r.textures.lookup texture_name with
  | some tid => (r, tid)
  | none =>
    match fs image_path with
    | some tid =>
      ({ r with textures := (texture_name, tid) :: r.textures }, tid)
    | none => (r, -1)

/-- `OpenGLRenderer.get_texture`: dict lookup with default `-1`. -/
def OpenGLRenderer.get_texture (r : OpenGLRenderer) (texture_name : String) : Int :=
  (r.textures.lookup texture_name).getD (-1)

/-- What the texture-dependent part of `Planet.draw` does: with a
nonnegative handle it enables texturing and binds that texture, otherwise
it disables texturing and sets the flat fallback color. -/
inductive DrawMode where
  | textured (id : Int)
  | flat (c : ℚ × ℚ × ℚ)
  deriving DecidableEq, Repr

/-- The branch on `self.texture_id >= 0` in `Planet.draw`. -/
def Planet.drawMode (p : Planet) : DrawMode :=
  if p.texture_id ≥ 0 then .textured p.texture_id else .flat p.color

/-- C7 — a failing texture load is non-fatal and falls back to flat color:
(a) when the name is not cached and the file read raises, `load_texture`
returns the sentinel `-1` with the state unchanged (it catches the
exception rather than propagating it — the embedding is total);
(b) a body holding the sentinel is drawn with its flat fallback color,
texturing disabled; (c) a body with a nonnegative handle binds exactly
that texture. -/
theorem c7_texture_failure_nonfatal :
    (∀ (r : OpenGLRenderer) (name path : String) (fs : String → Option Int),
        r.textures.lookup name = none → fs path = none →
        r.load_texture name path fs = (r, -1)) ∧
      (∀ p : Planet, p.texture_id = -1 → p.drawMode = .flat p.color) ∧
      (∀ p : Planet, 0 ≤ p.texture_id → p.drawMode = .textured p.texture_id) := by
  refine ⟨fun r name path fs h₁ h₂ => ?_, fun p hp => ?_, fun p hp => ?_⟩
  · simp [OpenGLRenderer.load_texture, h₁, h₂]
  · simp only [Planet.drawMode, hp]
    norm_num
  · simp [Planet.drawMode, hp]

/-- C7 witness: a renderer with an empty table, a filesystem on which the
load raises, and bodies on both sides of the sentinel test. -/
theorem c7_witness :
    OpenGLRenderer.load_texture ⟨1400, 900, []⟩ "venus" "textures/venus.png"
        (fun _ => none) = (⟨1400, 900, []⟩, -1) ∧
      Planet.drawMode { venusAtZero with texture_id := -1 } = .flat (0.8, 0.8, 0.8) ∧
      Planet.drawMode mercuryAtZero = .textured 0 :=
  ⟨c7_texture_failure_nonfatal.1 ⟨1400, 900, []⟩ "venus" "textures/venus.png"
      (fun _ => none) (by simp) rfl,
   c7_texture_failure_nonfatal.2.1 { venusAtZero with texture_id := -1 } rfl,
   c7_texture_failure_nonfatal.2.2 mercuryAtZero (by decide)⟩

/-- C10 — the texture table caches by name:
(a) if `name` is stored with id `tid`, every call returns `(r, tid)`
unchanged, for every path and every filesystem (so no file is read);
(b) a successful first load with a fresh name stores its id under the
name and returns it, so by (a) all later calls with that name return the
same handle; (c) a failed load leaves the whole state unchanged — in
particular the name stays unstored — and a later call with that name
consults the filesystem again and can succeed. -/
theorem c10_texture_cache :
    (∀ (r : OpenGLRenderer) (name : String) (tid : Int),
        r.textures.lookup name = some tid →
        ∀ (path : String) (fs : String → Option Int),
          r.load_texture name path fs = (r, tid)) ∧
      (∀ (r : OpenGLRenderer) (name path : String) (fs : String → Option Int)
          (tid : Int), r.textures.lookup name = none → fs path = some tid →
          (r.load_texture name path fs).2 = tid ∧
            (r.load_texture name path fs).1.textures.lookup name = some tid) ∧
      (∀ (r : OpenGLRenderer) (name path : String) (fs : String → Option Int),
        r.textures.lookup name = none → fs path = none →
        (r.load_texture name path fs).1 = r) := by
  refine ⟨fun r name tid h path fs => ?_, fun r name path fs tid h₁ h₂ => ?_,
    fun r name path fs h₁ h₂ => ?_⟩
  · simp [OpenGLRenderer.load_texture, h]
  · simp [OpenGLRenderer.load_texture, h₁, h₂]
  · simp [OpenGLRenderer.load_texture, h₁, h₂]

/-- C10 witness: a concrete cached entry is returned unchanged for an
unrelated path on a failing filesystem; a fresh successful load stores
its id; a failed load leaves the state unchanged. -/
theorem c10_witness :
    OpenGLRenderer.load_texture ⟨1400, 900, [("earth", 7)]⟩ "earth"
        "other/path.png" (fun _ => none) = (⟨1400, 900, [("earth", 7)]⟩, 7) ∧
      (OpenGLRenderer.load_texture ⟨1400, 900, []⟩ "mars" "textures/mars.png"
          (fun _ => some 3)).2 = 3 ∧
      (OpenGLRenderer.load_texture ⟨1400, 900, []⟩ "mars" "textures/mars.png"
          (fun _ => none)).1 = ⟨1400, 900, []⟩ :=
  ⟨c10_texture_cache.1 ⟨1400, 900, [("earth", 7)]⟩ "earth" 7 (by simp)
      "other/path.png" (fun _ => none),
   (c10_texture_cache.2.1 ⟨1400, 900, []⟩ "mars" "textures/mars.png"
      (fun _ => some 3) 3 (by simp) rfl).1,
   c10_texture_cache.2.2 ⟨1400, 900, []⟩ "mars" "textures/mars.png"
      (fun _ => none) (by simp) rfl⟩

/-! ## Scene coordinator pause semantics (src/main.py) -/

/-- The coordinator state that the per-frame simulate step touches. -/
structure SimState where
  paused : Bool
  planets : List Planet
  deriving DecidableEq, Repr

/-- `SolarSystemSimulator._update_simulation`: when not paused, every
planet is advanced by `update(delta_time=1.0)`; when paused, nothing
happens. -/
def SimState.update_simulation (s : SimState) : SimState :=
  if s.paused then s
  else { s with planets := s.planets.map (fun p => p.update 1) }

/-- The `K_p` handler: toggle the pause flag. -/
def SimState.toggle_pause (s : SimState) : SimState :=
  { s with paused := !s.paused }

/-- C8 — pause semantics of the frame-simulate step: (a) when paused the
step is the identity on the whole state, so every body's angles are
unchanged; (b) when running it maps `update 1.0` over every body; and
(c) toggling pause on from a running state makes the subsequent
frame-simulate step the identity on all planet kinematic state. -/
theorem c8_pause_freezes_bodies :
    (∀ s : SimState, s.paused = true → s.update_simulation = s) ∧
      (∀ s : SimState, s.paused = false →
        (s.update_simulation).planets = s.planets.map (fun p => p.update 1)) ∧
      (∀ s : SimState, s.paused = false →
        (s.toggle_pause.update_simulation).planets = s.planets) := by
  refine ⟨fun s h => ?_, fun s h => ?_, fun s h => ?_⟩
  · simp [SimState.update_simulation, h]
  · simp [SimState.update_simulation, h]
  · simp [SimState.update_simulation, SimState.toggle_pause, h]

/-- C8 witness: a concrete running state with one body — pausing it makes
the simulate step leave the body untouched, and running it ticks it. -/
theorem c8_witness :
    (SimState.update_simulation ⟨true, [venusAtZero]⟩ = ⟨true, [venusAtZero]⟩) ∧
      (SimState.update_simulation ⟨false, [venusAtZero]⟩).planets
          = [venusAtZero.update 1] ∧
      (SimState.toggle_pause ⟨false, [venusAtZero]⟩
          |>.update_simulation).planets = [venusAtZero] :=
  ⟨c8_pause_freezes_bodies.1 ⟨true, [venusAtZero]⟩ rfl,
   by rw [c8_pause_freezes_bodies.2.1 ⟨false, [venusAtZero]⟩ rfl]; rfl,
   c8_pause_freezes_bodies.2.2 ⟨false, [venusAtZero]⟩ rfl⟩

/-! ## Orbit path geometry (src/planet.py, draw_orbit_line) -/

/-- A 3-vector of exact reals, standing for the float triples of the
source. -/
structure Vec3 where
  x : ℝ
  y : ℝ
  z : ℝ

/-- Euclidean length, `np.linalg.norm`. -/
noncomputable def norm3 (v : Vec3) : ℝ := Real.sqrt (v.x ^ 2 + v.y ^ 2 + v.z ^ 2)

/-- The vertices emitted by `Planet.draw_orbit_line`: for `i` in
`range(128)`, the angle is `(i / segments) * 2 * pi` and the vertex is
`(distance * cos angle, 0, distance * sin angle)` (`segments = 128` is
hardcoded in the source). -/
noncomputable def orbitSample (d : ℝ) (i : ℕ) : Vec3 :=
  let angle : ℝ := ((i : ℝ) / 128) * (2 * π)
  ⟨d * Real.cos angle, 0, d * Real.sin angle⟩

/-- The full vertex list of one `draw_orbit_line` call. -/
noncomputable def Planet.orbitPathSamples (p : Planet) : List Vec3 :=
  (List.range 128).map (orbitSample (p.distance : ℝ))

/-- C6 — for a body with positive orbit radius the orbit-path sample list
has exactly 128 points; point `i` sits at angle `2πi/128` in the `y = 0`
plane; every point is at distance `orbitRadius` from the origin; the
first and last points are distinct (the loop is closed only by the
line-loop rendering mode, not by a repeated vertex); and the list is a
pure function of `orbitRadius` alone — hence independent of the current
`orbit_angle` and identical across repeated calls. -/
theorem c6_orbit_path_samples (p : Planet) (hd : 0 < p.distance) :
    p.orbitPathSamples.length = 128 ∧
      (∀ i : ℕ, i < 128 → p.orbitPathSamples.getD i ⟨0, 0, 0⟩ =
        ⟨(p.distance : ℝ) * Real.cos (2 * π * i / 128), 0,
          (p.distance : ℝ) * Real.sin (2 * π * i / 128)⟩) ∧
      (∀ i : ℕ, i < 128 →
        norm3 (p.orbitPathSamples.getD i ⟨0, 0, 0⟩) = (p.distance : ℝ)) ∧
      p.orbitPathSamples.getD 0 ⟨0, 0, 0⟩ ≠ p.orbitPathSamples.getD 127 ⟨0, 0, 0⟩ ∧
      (∀ q : Planet, q.distance = p.distance →
        q.orbitPathSamples = p.orbitPathSamples) := by
  have hdR : (0 : ℝ) < (p.distance : ℝ) := by exact_mod_cast hd
  have hlen : p.orbitPathSamples.length = 128 := by
    rw [Planet.orbitPathSamples, List.length_map, List.length_range]
  have hget : ∀ i : ℕ, i < 128 → p.orbitPathSamples.getD i ⟨0, 0, 0⟩ =
      ⟨(p.distance : ℝ) * Real.cos (((i : ℝ) / 128) * (2 * π)), 0,
        (p.distance : ℝ) * Real.sin (((i : ℝ) / 128) * (2 * π))⟩ := by
    intro i hi
    rw [List.getD_eq_getElem _ _ (by simpa [hlen] using hi)]
    simp only [Planet.orbitPathSamples, List.getElem_map, List.getElem_range]
    rfl
  refine ⟨hlen, fun i hi => ?_, fun i hi => ?_, ?_, fun q hq => ?_⟩
  · rw [hget i hi]
    have harg : ((i : ℝ) / 128) * (2 * π) = 2 * π * i / 128 := by ring
    rw [harg]
  · rw [hget i hi]
    have hxyz : ((p.distance : ℝ) * Real.cos (((i : ℝ) / 128) * (2 * π))) ^ 2 +
        (0 : ℝ) ^ 2 +
        ((p.distance : ℝ) * Real.sin (((i : ℝ) / 128) * (2 * π))) ^ 2 =
        (p.distance : ℝ) ^ 2 *
          (Real.sin (((i : ℝ) / 128) * (2 * π)) ^ 2 +
            Real.cos (((i : ℝ) / 128) * (2 * π)) ^ 2) := by ring
    rw [norm3, hxyz, Real.sin_sq_add_cos_sq, mul_one,
      Real.sqrt_sq hdR.le]
  · have hsin : Real.sin (((127 : ℕ) : ℝ) / 128 * (2 * π)) < 0 := by
      have h1 : ((127 : ℕ) : ℝ) / 128 * (2 * π) = 2 * π - π / 64 := by
        push_cast; ring
      have h2 : Real.sin (2 * π - π / 64) = - Real.sin (π / 64) := by
        simp [Real.sin_sub]
      have h3 : 0 < Real.sin (π / 64) :=
        Real.sin_pos_of_pos_of_lt_pi (by positivity)
          (by linarith [Real.pi_pos])
      rw [h1, h2]
      linarith
    intro heq
    rw [hget 0 (by norm_num), hget 127 (by norm_num)] at heq
    have hz := congrArg Vec3.z heq
    simp only at hz
    have hz0 : ((0 : ℕ) : ℝ) / 128 * (2 * π) = 0 := by norm_num
    rw [hz0, Real.sin_zero, mul_zero] at hz
    have hneg : (p.distance : ℝ) * Real.sin (((127 : ℕ) : ℝ) / 128 * (2 * π)) < 0 :=
      mul_neg_of_pos_of_neg hdR hsin
    rw [← hz] at hneg
    exact lt_irrefl 0 hneg
  · simp only [Planet.orbitPathSamples, hq]

/-- C6 witness: the sample properties at the Mercury body (orbit radius
8 > 0), with the second and third conjuncts inspected at index 0. -/
theorem c6_witness :
    (Planet.orbitPathSamples mercuryAtZero).length = 128 ∧
      (Planet.orbitPathSamples mercuryAtZero).getD 0 ⟨0, 0, 0⟩ ≠
        (Planet.orbitPathSamples mercuryAtZero).getD 127 ⟨0, 0, 0⟩ :=
  ⟨(c6_orbit_path_samples mercuryAtZero (by norm_num [mercuryAtZero])).1,
   (c6_orbit_path_samples mercuryAtZero (by norm_num [mercuryAtZero])).2.2.2.1⟩

/-! ## Camera rig (src/camera.py) -/

theorem Vec3.ext3 (a b : Vec3) (hx : a.x = b.x) (hy : a.y = b.y)
    (hz : a.z = b.z) : a = b := by
  cases a; cases b; simp_all

instance : Add Vec3 := ⟨fun a b => ⟨a.x + b.x, a.y + b.y, a.z + b.z⟩⟩

instance : Sub Vec3 := ⟨fun a b => ⟨a.x - b.x, a.y - b.y, a.z - b.z⟩⟩

instance : Neg Vec3 := ⟨fun a => ⟨-a.x, -a.y, -a.z⟩⟩

instance : SMul ℝ Vec3 := ⟨fun c a => ⟨c * a.x, c * a.y, c * a.z⟩⟩

theorem Vec3.add_x (a b : Vec3) : (a + b).x = a.x + b.x := rfl

theorem Vec3.add_y (a b : Vec3) : (a + b).y = a.y + b.y := rfl

theorem Vec3.add_z (a b : Vec3) : (a + b).z = a.z + b.z := rfl

theorem Vec3.sub_x (a b : Vec3) : (a - b).x = a.x - b.x := rfl

theorem Vec3.sub_y (a b : Vec3) : (a - b).y = a.y - b.y := rfl

theorem Vec3.sub_z (a b : Vec3) : (a - b).z = a.z - b.z := rfl

theorem Vec3.neg_x (a : Vec3) : (-a).x = -a.x := rfl

theorem Vec3.neg_y (a : Vec3) : (-a).y = -a.y := rfl

theorem Vec3.neg_z (a : Vec3) : (-a).z = -a.z := rfl

theorem Vec3.smul_x (c : ℝ) (a : Vec3) : (c • a).x = c * a.x := rfl

theorem Vec3.smul_y (c : ℝ) (a : Vec3) : (c • a).y = c * a.y := rfl

theorem Vec3.smul_z (c : ℝ) (a : Vec3) : (c • a).z = c * a.z := rfl

/-- `np.cross`. -/
def cross3 (a b : Vec3) : Vec3 :=
  ⟨a.y * b.z - a.z * b.y, a.z * b.x - a.x * b.z, a.x * b.y - a.y * b.x⟩

/-- Elementwise division by the Euclidean norm, `v / np.linalg.norm(v)`. -/
noncomputable def normalize3 (v : Vec3) : Vec3 := (1 / norm3 v) • v

/-- Degrees to radians, the `* math.pi / 180.0` of the source. -/
noncomputable def deg2rad (x : ℝ) : ℝ := x * π / 180

/-- `math.atan2 y x` is the argument of the complex number `x + y i`. -/
noncomputable def atan2 (y x : ℝ) : ℝ := Complex.arg ⟨x, y⟩

/-- The unit direction used by `_update_position_from_spherical`
(spherical angles supplied in degrees). -/
noncomputable def sphericalDir (theta phi : ℝ) : Vec3 :=
  ⟨Real.cos (deg2rad phi) * Real.sin (deg2rad theta),
   Real.sin (deg2rad phi),
   Real.cos (deg2rad phi) * Real.cos (deg2rad theta)⟩

/-- The full mutable state of `Camera` (`move_speed`, `rotation_speed`
and `zoom_speed` are set in `__init__` and never mutated, but are carried
as fields as in the source). -/
structure Camera where
  position : Vec3
  target : Vec3
  up : Vec3
  move_speed : ℝ
  rotation_speed : ℝ
  zoom_speed : ℝ
  distance : ℝ
  theta : ℝ
  phi : ℝ

/-- `Camera.__init__`: fixed position `(30,20,30)`, target at the origin,
spherical state derived from the absolute position exactly as in the
source (`distance = ‖position − target‖`, `theta = atan2(x, z)·180/π`,
`phi = asin(y / distance)·180/π`). -/
noncomputable def Camera.init : Camera :=
  { position := ⟨30, 20, 30⟩, target := ⟨0, 0, 0⟩, up := ⟨0, 1, 0⟩,
    move_speed := 0.5, rotation_speed := 2.0, zoom_speed := 1.0,
    distance := norm3 ((⟨30, 20, 30⟩ : Vec3) - ⟨0, 0, 0⟩),
    theta := atan2 30 30 * 180 / π,
    phi := Real.arcsin (20 / norm3 ((⟨30, 20, 30⟩ : Vec3) - ⟨0, 0, 0⟩)) * 180 / π }

/-- `Camera._update_position_from_spherical`. -/
noncomputable def Camera.update_position_from_spherical (c : Camera) : Camera :=
  { c with position := c.target + c.distance • sphericalDir c.theta c.phi }

/-- `Camera._recalculate_spherical`. -/
noncomputable def Camera.recalculate_spherical (c : Camera) : Camera :=
  { c with
    distance := norm3 (c.position - c.target),
    theta := atan2 (c.position - c.target).x (c.position - c.target).z * 180 / π,
    phi := Real.arcsin ((c.position - c.target).y / norm3 (c.position - c.target))
      * 180 / π }

/-- `Camera.rotate_horizontal`. -/
noncomputable def Camera.rotate_horizontal (c : Camera) (delta : ℝ) : Camera :=
  Camera.update_position_from_spherical
    { c with theta := c.theta + delta * c.rotation_speed }

/-- `Camera.rotate_vertical`: the candidate pitch is adopted only when it
lies strictly inside `(-89, 89)`; either way the position is then
recomputed from the spherical state. -/
noncomputable def Camera.rotate_vertical (c : Camera) (delta : ℝ) : Camera :=
  Camera.update_position_from_spherical
    { c with phi :=
        if -89 < c.phi + delta * c.rotation_speed ∧
            c.phi + delta * c.rotation_speed < 89
        then c.phi + delta * c.rotation_speed else c.phi }

/-- `Camera.move_forward`. -/
noncomputable def Camera.move_forward (c : Camera) : Camera :=
  let direction := normalize3 (c.target - c.position)
  { c with position := c.position + c.move_speed • direction,
           target := c.target + c.move_speed • direction }

/-- `Camera.move_backward`. -/
noncomputable def Camera.move_backward (c : Camera) : Camera :=
  let direction := normalize3 (c.target - c.position)
  { c with position := c.position - c.move_speed • direction,
           target := c.target - c.move_speed • direction }

/-- `Camera.move_left`. -/
noncomputable def Camera.move_left (c : Camera) : Camera :=
  let right := normalize3 (cross3 (c.target - c.position) c.up)
  { c with position := c.position - c.move_speed • right,
           target := c.target - c.move_speed • right }

/-- `Camera.move_right`. -/
noncomputable def Camera.move_right (c : Camera) : Camera :=
  let right := normalize3 (cross3 (c.target - c.position) c.up)
  { c with position := c.position + c.move_speed • right,
           target := c.target + c.move_speed • right }

/-- `Camera.move_up`. -/
noncomputable def Camera.move_up (c : Camera) : Camera :=
  { c with position := c.position + c.move_speed • c.up,
           target := c.target + c.move_speed • c.up }

/-- `Camera.move_down`. -/
noncomputable def Camera.move_down (c : Camera) : Camera :=
  { c with position := c.position - c.move_speed • c.up,
           target := c.target - c.move_speed • c.up }

/-- `Camera.zoom_in`: decrease distance, clamp below at 10, recompute. -/
noncomputable def Camera.zoom_in (c : Camera) : Camera :=
  let d := c.distance - c.zoom_speed
  Camera.update_position_from_spherical
    { c with distance := if d < 10 then 10 else d }

/-- `Camera.zoom_out`: increase distance, clamp above at 500, recompute. -/
noncomputable def Camera.zoom_out (c : Camera) : Camera :=
  let d := c.distance + c.zoom_speed
  Camera.update_position_from_spherical
    { c with distance := if d > 500 then 500 else d }

/-- `Camera.reset_view`. -/
noncomputable def Camera.reset_view (c : Camera) : Camera :=
  Camera.recalculate_spherical
    { c with position := ⟨30, 20, 30⟩, target := ⟨0, 0, 0⟩ }

/-- `Camera.apply_view_matrix` hands `gluLookAt` exactly
(position, target, up). -/
def Camera.viewTransform (c : Camera) : Vec3 × Vec3 × Vec3 :=
  (c.position, c.target, c.up)

/-- One public camera mutation. -/
inductive CamOp where
  | rotateH (delta : ℝ)
  | rotateV (delta : ℝ)
  | moveF
  | moveB
  | moveL
  | moveR
  | moveU
  | moveD
  | zoomIn
  | zoomOut
  | reset

/-- Apply one public mutation. -/
noncomputable def Camera.applyOp (c : Camera) : CamOp → Camera
  | .rotateH d => c.rotate_horizontal d
  | .rotateV d => c.rotate_vertical d
  | .moveF => c.move_forward
  | .moveB => c.move_backward
  | .moveL => c.move_left
  | .moveR => c.move_right
  | .moveU => c.move_up
  | .moveD => c.move_down
  | .zoomIn => c.zoom_in
  | .zoomOut => c.zoom_out
  | .reset => c.reset_view

/-- Apply a finite sequence of public mutations, first element first. -/
noncomputable def Camera.applyOps (c : Camera) (ops : List CamOp) : Camera :=
  ops.foldl Camera.applyOp c

/-- The inductive invariant of the camera rig: the position is the focus
plus the spherical offset, the distance is inside the zoom clamp band,
the pitch is strictly inside the gimbal guard band, and the up vector is
the world up. -/
def Camera.Inv (c : Camera) : Prop :=
  c.position = c.target + c.distance • sphericalDir c.theta c.phi ∧
    10 ≤ c.distance ∧ c.distance ≤ 500 ∧ -89 < c.phi ∧ c.phi < 89 ∧
    c.up = ⟨0, 1, 0⟩ ∧ c.zoom_speed = 1

theorem norm3_smul (a : ℝ) (v : Vec3) : norm3 (a • v) = |a| * norm3 v := by
  unfold norm3
  rw [Vec3.smul_x, Vec3.smul_y, Vec3.smul_z,
    show (a * v.x) ^ 2 + (a * v.y) ^ 2 + (a * v.z) ^ 2 =
      a ^ 2 * (v.x ^ 2 + v.y ^ 2 + v.z ^ 2) from by ring,
    Real.sqrt_mul (sq_nonneg a), Real.sqrt_sq_eq_abs]

theorem norm3_sphericalDir (theta phi : ℝ) : norm3 (sphericalDir theta phi) = 1 := by
  unfold norm3 sphericalDir
  dsimp only
  rw [show (Real.cos (deg2rad phi) * Real.sin (deg2rad theta)) ^ 2 +
      Real.sin (deg2rad phi) ^ 2 +
      (Real.cos (deg2rad phi) * Real.cos (deg2rad theta)) ^ 2 =
      (Real.sin (deg2rad theta) ^ 2 + Real.cos (deg2rad theta) ^ 2) *
          Real.cos (deg2rad phi) ^ 2 +
        Real.sin (deg2rad phi) ^ 2 from by ring,
    Real.sin_sq_add_cos_sq, one_mul, add_comm, Real.sin_sq_add_cos_sq,
    Real.sqrt_one]

theorem deg2rad_undo (a : ℝ) : deg2rad (a * 180 / π) = a := by
  unfold deg2rad
  field_simp

theorem norm3_302030 : norm3 ((⟨30, 20, 30⟩ : Vec3) - ⟨0, 0, 0⟩) = Real.sqrt 2200 := by
  show Real.sqrt (((30:ℝ) - 0) ^ 2 + ((20:ℝ) - 0) ^ 2 + ((30:ℝ) - 0) ^ 2) = Real.sqrt 2200
  norm_num

theorem sqrt2200_pos : (0 : ℝ) < Real.sqrt 2200 := Real.sqrt_pos.mpr (by norm_num)

theorem sqrt2200_ge_20 : (20 : ℝ) ≤ Real.sqrt 2200 := by
  have h400 : Real.sqrt 400 = 20 := by
    rw [show (400 : ℝ) = 20 ^ 2 from by norm_num,
      Real.sqrt_sq (by norm_num : (0:ℝ) ≤ 20)]
  rw [← h400]
  exact Real.sqrt_le_sqrt (by norm_num)

theorem sqrt2200_ge_40 : (40 : ℝ) ≤ Real.sqrt 2200 := by
  have h1600 : Real.sqrt 1600 = 40 := by
    rw [show (1600 : ℝ) = 40 ^ 2 from by norm_num,
      Real.sqrt_sq (by norm_num : (0:ℝ) ≤ 40)]
  rw [← h1600]
  exact Real.sqrt_le_sqrt (by norm_num)

theorem sqrt2200_le_500 : Real.sqrt 2200 ≤ 500 := by
  have h : Real.sqrt 250000 = 500 := by
    rw [show (250000 : ℝ) = 500 ^ 2 from by norm_num,
      Real.sqrt_sq (by norm_num : (0:ℝ) ≤ 500)]
  rw [← h]
  exact Real.sqrt_le_sqrt (by norm_num)

theorem sqrt2200_ge_10 : (10 : ℝ) ≤ Real.sqrt 2200 := by
  linarith [sqrt2200_ge_20]

/-- The derived default pitch: `asin(20 / √2200)` is at most `π/6`. -/
theorem arcsin_default_le : Real.arcsin (20 / Real.sqrt 2200) ≤ π / 6 := by
  have hpi := Real.pi_pos
  have h1 : (20 : ℝ) / Real.sqrt 2200 ≤ 1 / 2 := by
    rw [div_le_iff sqrt2200_pos]
    nlinarith [sqrt2200_ge_40]
  calc Real.arcsin (20 / Real.sqrt 2200) ≤ Real.arcsin (1 / 2) :=
        Real.monotone_arcsin h1
    _ = π / 6 := by
        rw [← Real.sin_pi_div_six]
        exact Real.arcsin_sin (by linarith) (by linarith)

/-- Default pitch in degrees is in `[0, 30]`, well inside `(-89, 89)`. -/
theorem phi_default_bounds :
    0 ≤ Real.arcsin (20 / Real.sqrt 2200) * 180 / π ∧
      Real.arcsin (20 / Real.sqrt 2200) * 180 / π < 89 := by
  have hpi := Real.pi_pos
  constructor
  · apply div_nonneg _ hpi.le
    exact mul_nonneg (Real.arcsin_nonneg.mpr (by positivity)) (by norm_num)
  · have h30 : π / 6 * 180 / π = 30 := by
      field_simp
      ring
    have hle : Real.arcsin (20 / Real.sqrt 2200) * 180 / π ≤ π / 6 * 180 / π := by
      gcongr
      exact arcsin_default_le
    linarith

/-- The heart of the camera-rig invariant at the default state: the
spherical coordinates derived in `__init__` reproduce the absolute
position `(30, 20, 30)` exactly. -/
theorem sqrt2200_smul_dir :
    Real.sqrt 2200 • sphericalDir (atan2 30 30 * 180 / π)
        (Real.arcsin (20 / Real.sqrt 2200) * 180 / π) = ⟨30, 20, 30⟩ := by
  have h2200 := sqrt2200_pos
  have h1800 : (0 : ℝ) < Real.sqrt 1800 := Real.sqrt_pos.mpr (by norm_num)
  have hzne : ((⟨30, 30⟩ : ℂ)) ≠ 0 := by
    simp [Complex.ext_iff]
  have habs : Complex.abs ⟨30, 30⟩ = Real.sqrt 1800 := by
    rw [Complex.abs_apply, Complex.normSq_mk]
    norm_num
  have hcosarg : Real.cos (atan2 30 30) = 30 / Real.sqrt 1800 := by
    simp only [atan2]
    rw [Complex.cos_arg hzne, habs]
  have hsinarg : Real.sin (atan2 30 30) = 30 / Real.sqrt 1800 := by
    simp only [atan2]
    rw [Complex.sin_arg, habs]
  have hsq : ((20 : ℝ) / Real.sqrt 2200) ^ 2 = 400 / 2200 := by
    rw [div_pow, Real.sq_sqrt (by norm_num : (0:ℝ) ≤ 2200)]
    norm_num
  have hcosasin : Real.cos (Real.arcsin (20 / Real.sqrt 2200)) =
      Real.sqrt 1800 / Real.sqrt 2200 := by
    rw [Real.cos_arcsin, hsq,
      show (1 : ℝ) - 400 / 2200 = 1800 / 2200 from by norm_num,
      Real.sqrt_div (by norm_num : (0:ℝ) ≤ 1800)]
  have hsinasin : Real.sin (Real.arcsin (20 / Real.sqrt 2200)) =
      20 / Real.sqrt 2200 := by
    apply Real.sin_arcsin
    · have h0 : (0 : ℝ) ≤ 20 / Real.sqrt 2200 := by positivity
      linarith
    · rw [div_le_one h2200]
      exact sqrt2200_ge_20
  apply Vec3.ext3
  · show Real.sqrt 2200 *
      (Real.cos (deg2rad (Real.arcsin (20 / Real.sqrt 2200) * 180 / π)) *
        Real.sin (deg2rad (atan2 30 30 * 180 / π))) = 30
    rw [deg2rad_undo, deg2rad_undo, hcosasin, hsinarg]
    field_simp
    ring
  · show Real.sqrt 2200 *
      Real.sin (deg2rad (Real.arcsin (20 / Real.sqrt 2200) * 180 / π)) = 20
    rw [deg2rad_undo, hsinasin]
    field_simp
  · show Real.sqrt 2200 *
      (Real.cos (deg2rad (Real.arcsin (20 / Real.sqrt 2200) * 180 / π)) *
        Real.cos (deg2rad (atan2 30 30 * 180 / π))) = 30
    rw [deg2rad_undo, deg2rad_undo, hcosasin, hcosarg]
    field_simp
    ring

/-- The camera-rig invariant holds at the default-constructed state. -/
theorem Camera.inv_init : Camera.Inv Camera.init := by
  obtain ⟨hphi0, hphi89⟩ := phi_default_bounds
  refine ⟨?_, ?_, ?_, ?_, ?_, rfl, by show (1.0 : ℝ) = 1; norm_num⟩
  · show (⟨30, 20, 30⟩ : Vec3) =
      (⟨0, 0, 0⟩ : Vec3) + norm3 ((⟨30, 20, 30⟩ : Vec3) - ⟨0, 0, 0⟩) •
        sphericalDir (atan2 30 30 * 180 / π)
          (Real.arcsin (20 / norm3 ((⟨30, 20, 30⟩ : Vec3) - ⟨0, 0, 0⟩)) * 180 / π)
    rw [norm3_302030, sqrt2200_smul_dir]
    apply Vec3.ext3 <;> norm_num [Vec3.add_x, Vec3.add_y, Vec3.add_z]
  · show (10 : ℝ) ≤ norm3 ((⟨30, 20, 30⟩ : Vec3) - ⟨0, 0, 0⟩)
    rw [norm3_302030]
    exact sqrt2200_ge_10
  · show norm3 ((⟨30, 20, 30⟩ : Vec3) - ⟨0, 0, 0⟩) ≤ 500
    rw [norm3_302030]
    exact sqrt2200_le_500
  · show (-89 : ℝ) <
      Real.arcsin (20 / norm3 ((⟨30, 20, 30⟩ : Vec3) - ⟨0, 0, 0⟩)) * 180 / π
    rw [norm3_302030]
    linarith
  · show Real.arcsin (20 / norm3 ((⟨30, 20, 30⟩ : Vec3) - ⟨0, 0, 0⟩)) * 180 / π < 89
    rw [norm3_302030]
    exact hphi89

/-- Recomputing spherical state from the absolute default position
(the body of `reset_view`) re-establishes the invariant. -/
theorem Camera.inv_recalc (c : Camera) (hpos : c.position = ⟨30, 20, 30⟩)
    (htgt : c.target = ⟨0, 0, 0⟩) (hup : c.up = ⟨0, 1, 0⟩)
    (hzs : c.zoom_speed = 1) :
    Camera.Inv c.recalculate_spherical := by
  obtain ⟨hphi0, hphi89⟩ := phi_default_bounds
  have hdiff : c.position - c.target = (⟨30, 20, 30⟩ : Vec3) - ⟨0, 0, 0⟩ := by
    rw [hpos, htgt]
  have hdx : (c.position - c.target).x = 30 := by
    rw [hdiff]
    show (30 : ℝ) - 0 = 30
    norm_num
  have hdy : (c.position - c.target).y = 20 := by
    rw [hdiff]
    show (20 : ℝ) - 0 = 20
    norm_num
  have hdz : (c.position - c.target).z = 30 := by
    rw [hdiff]
    show (30 : ℝ) - 0 = 30
    norm_num
  have hnorm : norm3 (c.position - c.target) = Real.sqrt 2200 := by
    rw [hdiff, norm3_302030]
  refine ⟨?_, ?_, ?_, ?_, ?_, hup, hzs⟩
  · show c.position = c.target + norm3 (c.position - c.target) •
      sphericalDir
        (atan2 (c.position - c.target).x (c.position - c.target).z * 180 / π)
        (Real.arcsin ((c.position - c.target).y / norm3 (c.position - c.target))
          * 180 / π)
    rw [hnorm, hdx, hdy, hdz, sqrt2200_smul_dir, hpos, htgt]
    apply Vec3.ext3 <;> norm_num [Vec3.add_x, Vec3.add_y, Vec3.add_z]
  · show (10 : ℝ) ≤ norm3 (c.position - c.target)
    rw [hnorm]
    exact sqrt2200_ge_10
  · show norm3 (c.position - c.target) ≤ 500
    rw [hnorm]
    exact sqrt2200_le_500
  · show (-89 : ℝ) <
      Real.arcsin ((c.position - c.target).y / norm3 (c.position - c.target))
        * 180 / π
    rw [hnorm, hdy]
    linarith
  · show Real.arcsin ((c.position - c.target).y / norm3 (c.position - c.target))
      * 180 / π < 89
    rw [hnorm, hdy]
    exact hphi89

/-- `_update_position_from_spherical` establishes the position equation
outright, and preserves the scalar bounds and the up vector. -/
theorem Camera.inv_update_pos (c : Camera) (h10 : 10 ≤ c.distance)
    (h500 : c.distance ≤ 500) (h1 : -89 < c.phi) (h2 : c.phi < 89)
    (hup : c.up = ⟨0, 1, 0⟩) (hzs : c.zoom_speed = 1) :
    Camera.Inv c.update_position_from_spherical :=
  ⟨rfl, h10, h500, h1, h2, hup, hzs⟩

/-- Shifting position and target by the same vector preserves the
position equation. -/
theorem shift_add (p t dir v : Vec3) (d : ℝ) (h : p = t + d • dir) :
    p + v = (t + v) + d • dir := by
  rw [h]
  apply Vec3.ext3 <;>
    simp only [Vec3.add_x, Vec3.add_y, Vec3.add_z, Vec3.smul_x, Vec3.smul_y,
      Vec3.smul_z] <;> ring

/-- Same for subtraction. -/
theorem shift_sub (p t dir v : Vec3) (d : ℝ) (h : p = t + d • dir) :
    p - v = (t - v) + d • dir := by
  rw [h]
  apply Vec3.ext3 <;>
    simp only [Vec3.add_x, Vec3.add_y, Vec3.add_z, Vec3.sub_x, Vec3.sub_y,
      Vec3.sub_z, Vec3.smul_x, Vec3.smul_y, Vec3.smul_z] <;> ring

/-- Every public camera mutation preserves the rig invariant. -/
theorem Camera.inv_applyOp (c : Camera) (h : Camera.Inv c) (op : CamOp) :
    Camera.Inv (c.applyOp op) := by
  obtain ⟨hpos, h10, h500, hphi1, hphi2, hup, hzs⟩ := h
  cases op with
  | rotateH d => exact Camera.inv_update_pos _ h10 h500 hphi1 hphi2 hup hzs
  | rotateV d =>
    refine Camera.inv_update_pos _ h10 h500 ?_ ?_ hup hzs <;> dsimp only <;>
      split_ifs with hc
    · exact hc.1
    · exact hphi1
    · exact hc.2
    · exact hphi2
  | moveF => exact ⟨shift_add _ _ _ _ _ hpos, h10, h500, hphi1, hphi2, hup, hzs⟩
  | moveB => exact ⟨shift_sub _ _ _ _ _ hpos, h10, h500, hphi1, hphi2, hup, hzs⟩
  | moveL => exact ⟨shift_sub _ _ _ _ _ hpos, h10, h500, hphi1, hphi2, hup, hzs⟩
  | moveR => exact ⟨shift_add _ _ _ _ _ hpos, h10, h500, hphi1, hphi2, hup, hzs⟩
  | moveU => exact ⟨shift_add _ _ _ _ _ hpos, h10, h500, hphi1, hphi2, hup, hzs⟩
  | moveD => exact ⟨shift_sub _ _ _ _ _ hpos, h10, h500, hphi1, hphi2, hup, hzs⟩
  | zoomIn =>
    refine Camera.inv_update_pos _ ?_ ?_ hphi1 hphi2 hup hzs <;> dsimp only <;>
      split_ifs with hc
    · linarith
    · linarith
    · linarith
    · linarith
  | zoomOut =>
    refine Camera.inv_update_pos _ ?_ ?_ hphi1 hphi2 hup hzs <;> dsimp only <;>
      split_ifs with hc
    · linarith
    · linarith
    · linarith
    · linarith
  | reset => exact Camera.inv_recalc _ rfl rfl hup hzs

/-- The invariant holds after every finite op sequence from a state
satisfying it. -/
theorem Camera.inv_applyOps (ops : List CamOp) :
    ∀ c : Camera, Camera.Inv c → Camera.Inv (c.applyOps ops) := by
  induction ops with
  | nil => exact fun c h => h
  | cons op ops ih => exact fun c h => ih (c.applyOp op) (Camera.inv_applyOp c h op)

/-- For a pitch strictly inside `(-89, 89)` degrees, the cosine of its
radian value is positive. -/
theorem cos_deg2rad_pos (phi : ℝ) (h1 : -89 < phi) (h2 : phi < 89) :
    0 < Real.cos (deg2rad phi) := by
  have hpi := Real.pi_pos
  apply Real.cos_pos_of_mem_Ioo
  unfold deg2rad
  constructor
  · nlinarith [mul_pos (show (0:ℝ) < phi + 89 from by linarith) Real.pi_pos]
  · nlinarith [mul_pos (show (0:ℝ) < 89 - phi from by linarith) Real.pi_pos]

/-- Under the rig invariant, the un-normalised view direction
`target - position` has length exactly `distance`. -/
theorem Camera.norm_view_dir (c : Camera) (h : Camera.Inv c) :
    norm3 (c.target - c.position) = c.distance := by
  obtain ⟨hpos, h10, _, _, _, _, _⟩ := h
  have hvec : c.target - c.position =
      (-c.distance) • sphericalDir c.theta c.phi := by
    rw [hpos]
    apply Vec3.ext3 <;>
      simp only [Vec3.sub_x, Vec3.sub_y, Vec3.sub_z, Vec3.add_x, Vec3.add_y,
        Vec3.add_z, Vec3.smul_x, Vec3.smul_y, Vec3.smul_z] <;> ring
  rw [hvec, norm3_smul, norm3_sphericalDir, mul_one, abs_neg,
    abs_of_pos (by linarith)]

/-- Under the rig invariant, the `np.cross(direction, up)` vector of
`move_left`/`move_right` has length `distance * cos(pitch)`. -/
theorem Camera.norm_cross_dir (c : Camera) (h : Camera.Inv c) :
    norm3 (cross3 (c.target - c.position) c.up) =
      c.distance * Real.cos (deg2rad c.phi) := by
  obtain ⟨hpos, h10, _, hphi1, hphi2, hup, _⟩ := h
  have hcos := cos_deg2rad_pos c.phi hphi1 hphi2
  have hvec : c.target - c.position =
      ⟨-(c.distance * (Real.cos (deg2rad c.phi) * Real.sin (deg2rad c.theta))),
       -(c.distance * Real.sin (deg2rad c.phi)),
       -(c.distance * (Real.cos (deg2rad c.phi) * Real.cos (deg2rad c.theta)))⟩ := by
    rw [hpos]
    apply Vec3.ext3 <;>
      simp only [Vec3.sub_x, Vec3.sub_y, Vec3.sub_z, Vec3.add_x, Vec3.add_y,
        Vec3.add_z, Vec3.smul_x, Vec3.smul_y, Vec3.smul_z, sphericalDir] <;> ring
  rw [hvec, hup]
  unfold cross3 norm3
  dsimp only
  rw [show (-(c.distance * Real.sin (deg2rad c.phi)) * 0 -
        -(c.distance * (Real.cos (deg2rad c.phi) * Real.cos (deg2rad c.theta))) * 1) ^ 2 +
      (-(c.distance * (Real.cos (deg2rad c.phi) * Real.cos (deg2rad c.theta))) * 0 -
        -(c.distance * (Real.cos (deg2rad c.phi) * Real.sin (deg2rad c.theta))) * 0) ^ 2 +
      (-(c.distance * (Real.cos (deg2rad c.phi) * Real.sin (deg2rad c.theta))) * 1 -
        -(c.distance * Real.sin (deg2rad c.phi)) * 0) ^ 2 =
      (c.distance * Real.cos (deg2rad c.phi)) ^ 2 *
        (Real.sin (deg2rad c.theta) ^ 2 + Real.cos (deg2rad c.theta) ^ 2)
      from by ring,
    Real.sin_sq_add_cos_sq, mul_one,
    Real.sqrt_sq (by positivity)]

/-- C3 — starting from the default-constructed camera, after every finite
sequence of public mutations the exact identity
`position = target + distance • sphericalDir theta phi` holds (degrees,
exact real arithmetic), and therefore the eye handed to the view
transform is always the focus plus the spherical offset. -/
theorem c3_spherical_position_invariant (ops : List CamOp) :
    (Camera.applyOps Camera.init ops).position =
        (Camera.applyOps Camera.init ops).target +
          (Camera.applyOps Camera.init ops).distance •
            sphericalDir (Camera.applyOps Camera.init ops).theta
              (Camera.applyOps Camera.init ops).phi ∧
      (Camera.applyOps Camera.init ops).viewTransform.1 =
        (Camera.applyOps Camera.init ops).viewTransform.2.1 +
          (Camera.applyOps Camera.init ops).distance •
            sphericalDir (Camera.applyOps Camera.init ops).theta
              (Camera.applyOps Camera.init ops).phi := by
  have h := (Camera.inv_applyOps ops Camera.init Camera.inv_init).1
  exact ⟨h, h⟩

/-- C4 — pitch never leaves the open band `(-89, 89)` over any sequence
and magnitude of `rotate_vertical` calls from the default state, and a
call whose candidate pitch leaves the band keeps the pitch unchanged
(silently dropped, not clamped to the boundary). -/
theorem c4_pitch_strictly_banded :
    (∀ ds : List ℝ,
        -89 < (Camera.applyOps Camera.init (ds.map CamOp.rotateV)).phi ∧
          (Camera.applyOps Camera.init (ds.map CamOp.rotateV)).phi < 89) ∧
      (∀ (c : Camera) (delta : ℝ),
        ¬(-89 < c.phi + delta * c.rotation_speed ∧
            c.phi + delta * c.rotation_speed < 89) →
        (c.rotate_vertical delta).phi = c.phi) := by
  constructor
  · intro ds
    have h := Camera.inv_applyOps (ds.map CamOp.rotateV) Camera.init Camera.inv_init
    exact ⟨h.2.2.2.1, h.2.2.2.2.1⟩
  · intro c delta hno
    unfold Camera.rotate_vertical Camera.update_position_from_spherical
    dsimp only
    rw [if_neg hno]

/-- C4 witness: a 1-step sequence stays in the band, and at a concrete
camera with pitch 0 a `rotate_vertical 100` (candidate `200`, outside the
band) leaves the pitch exactly 0. -/
theorem c4_witness :
    (-89 < (Camera.applyOps Camera.init ([5].map CamOp.rotateV)).phi ∧
        (Camera.applyOps Camera.init ([5].map CamOp.rotateV)).phi < 89) ∧
      (Camera.rotate_vertical
          ⟨⟨0, 0, 0⟩, ⟨0, 0, 0⟩, ⟨0, 1, 0⟩, 1/2, 2, 1, 50, 0, 0⟩ 100).phi = 0 :=
  ⟨c4_pitch_strictly_banded.1 [5],
   (c4_pitch_strictly_banded.2 ⟨⟨0, 0, 0⟩, ⟨0, 0, 0⟩, ⟨0, 1, 0⟩, 1/2, 2, 1, 50, 0, 0⟩
      100 (by intro hcontra; have h2 := hcontra.2; norm_num at h2)).trans rfl⟩

/-- C5 — reachable camera states keep `distance` inside `[10, 500]`, so
the vectors normalised by `move_forward`/`move_backward` (the view
direction, of length `distance ≥ 10`) and by `move_left`/`move_right`
(its cross product with up, of length `distance * cos pitch > 0`) never
have zero norm: the division in the normalisation never divides by
zero. -/
theorem c5_zoom_clamp_normalize_safe (ops : List CamOp) :
    10 ≤ (Camera.applyOps Camera.init ops).distance ∧
      (Camera.applyOps Camera.init ops).distance ≤ 500 ∧
      norm3 ((Camera.applyOps Camera.init ops).target -
        (Camera.applyOps Camera.init ops).position) ≠ 0 ∧
      norm3 (cross3 ((Camera.applyOps Camera.init ops).target -
          (Camera.applyOps Camera.init ops).position)
        (Camera.applyOps Camera.init ops).up) ≠ 0 := by
  have h := Camera.inv_applyOps ops Camera.init Camera.inv_init
  obtain ⟨hpos, h10, h500, hphi1, hphi2, hup, hzs⟩ := h
  have hInv : Camera.Inv (Camera.applyOps Camera.init ops) :=
    ⟨hpos, h10, h500, hphi1, hphi2, hup, hzs⟩
  refine ⟨h10, h500, ?_, ?_⟩
  · rw [Camera.norm_view_dir _ hInv]
    linarith
  · rw [Camera.norm_cross_dir _ hInv]
    have hcos := cos_deg2rad_pos _ hphi1 hphi2
    positivity

/-! ## Background starfield (src/main.py, _render_starfield) -/

/-- `SolarSystemSimulator._render_starfield`, with the NumPy global
generator abstracted: `u seed k` is the k-th uniform `[0,1)` variate of
the stream obtained after `np.random.seed(seed)`; `uniform(a, b)` is
`a + (b - a) * draw`.  The method re-seeds with the hardcoded 42 on every
invocation and reads none of the simulator's mutable state, which the
embedding makes explicit by taking the ambient camera, elapsed time and
frame counter as (unused) arguments. -/
noncomputable def render_starfield (u : ℕ → ℕ → ℝ) (cam : Camera)
    (time_elapsed : ℝ) (frame_count : ℕ) : List Vec3 :=
  (List.range 500).map (fun i =>
    let theta := 0 + (2 * π - 0) * u 42 (2 * i)
    let phi := 0 + (π - 0) * u 42 (2 * i + 1)
    ⟨300 * Real.sin phi * Real.cos theta,
     300 * Real.sin phi * Real.sin theta,
     300 * Real.cos phi⟩)

/-- C9 — the starfield is deterministic: for a fixed generator the 500
emitted star positions are identical whatever the camera state, elapsed
time or frame count (any two frames of a run agree); and any two runs
whose generators agree on the seed-42 stream — as NumPy's seeded
generator does across runs — emit identical lists.  The vertex count is
exactly 500. -/
theorem c9_starfield_deterministic :
    (∀ (u : ℕ → ℕ → ℝ) (cam₁ : Camera) (t₁ : ℝ) (f₁ : ℕ) (cam₂ : Camera)
        (t₂ : ℝ) (f₂ : ℕ),
        render_starfield u cam₁ t₁ f₁ = render_starfield u cam₂ t₂ f₂) ∧
      (∀ (u : ℕ → ℕ → ℝ) (cam : Camera) (t : ℝ) (f : ℕ),
        (render_starfield u cam t f).length = 500) ∧
      (∀ (u v : ℕ → ℕ → ℝ) (cam₁ : Camera) (t₁ : ℝ) (f₁ : ℕ) (cam₂ : Camera)
        (t₂ : ℝ) (f₂ : ℕ), (∀ k, u 42 k = v 42 k) →
        render_starfield u cam₁ t₁ f₁ = render_starfield v cam₂ t₂ f₂) := by
  refine ⟨fun u cam₁ t₁ f₁ cam₂ t₂ f₂ => rfl,
    fun u cam t f => by
      rw [render_starfield, List.length_map, List.length_range],
    fun u v cam₁ t₁ f₁ cam₂ t₂ f₂ hk => ?_⟩
  unfold render_starfield
  apply List.map_congr_left
  intro i _
  rw [hk (2 * i), hk (2 * i + 1)]

/-- C9 witness: the cross-run conjunct applied to the constant generator
against itself, at two different ambient states. -/
theorem c9_witness :
    render_starfield (fun _ _ => 0) Camera.init 0 0 =
      render_starfield (fun _ _ => 0) Camera.init 5 17 :=
  c9_starfield_deterministic.2.2 (fun _ _ => 0) (fun _ _ => 0)
    Camera.init 0 0 Camera.init 5 17 (fun _ => rfl)
